import Mathlib

/-!
Verification of the core algorithmic components of the
deriv-microstructure-xray repository: the time-bucketed candle
aggregator, the tick buffer, the volatility engine, the probability
blend, the edge evaluator, and the config-update handler.

Conventions of the shallow embedding:
* JS numbers that only ever hold exact tick prices / payouts are
  modelled as rationals; quantities passing through `Math.log` /
  `Math.sqrt` are modelled as reals.
* `null` is modelled as `Option.none`.
* The sentinel initial values `-Infinity` (for a candle's running high)
  and `Infinity` (for its running low) are modelled as `none`: the code
  only ever compares them against finite prices, and `price > -Infinity`
  resp. `price < Infinity` always hold, which is exactly the `none`
  branch below.
-/

/-- A tick `{ epoch, quote }` as stored by the server. -/
structure Tick where
  epoch : Int
  quote : ℚ
deriving DecidableEq

/-! ### Candle aggregator (src/server/candleAggregator.js) -/

/-- The fixed timeframe table
`{ '5s': 5, '10s': 10, '15s': 15, '30s': 30, '1m': 60, '2m': 120, '5m': 300 }`. -/
def TIMEFRAMES : List (String × Int) :=
  [("5s", 5), ("10s", 10), ("15s", 15), ("30s", 30), ("1m", 60), ("2m", 120), ("5m", 300)]

/-- `Math.floor(nowEpoch / tfSec) * tfSec`: `Int.fdiv` is floor division,
matching `Math.floor` of the real quotient for every sign of the operands. -/
def bucketStart (tfSec epoch : Int) : Int := epoch.fdiv tfSec * tfSec

/-- An active (mutable in JS) candle
`{ openTime, closeTime, o, h, l, c }`. -/
structure TCandle where
  openTime : Int
  closeTime : Int
  o : Option ℚ
  h : Option ℚ
  l : Option ℚ
  c : Option ℚ
deriving DecidableEq

/-- `makeTCandle(tfSec, nowEpoch)`. -/
def makeTCandle (tfSec nowEpoch : Int) : TCandle :=
  { openTime := bucketStart tfSec nowEpoch
    closeTime := bucketStart tfSec nowEpoch + tfSec
    o := none, h := none, l := none, c := none }

/-- `updateTCandle(candle, price)`:
`if (o === null) o = price; if (price > h) h = price; if (price < l) l = price; c = price`. -/
def updateTCandle (candle : TCandle) (price : ℚ) : TCandle :=
  { candle with
    o := some (candle.o.getD price)
    h := match candle.h with
      | none => some price
      | some x => if price > x then some price else some x
    l := match candle.l with
      | none => some price
      | some x => if price < x then some price else some x
    c := some price }

/-- A closed candle `{ time, open, high, low, close }` as emitted to
clients.  Field names carry a `P` suffix because `open` is a reserved
word in Lean. -/
structure Candle where
  time : Int
  openP : Option ℚ
  highP : Option ℚ
  lowP : Option ℚ
  closeP : Option ℚ
deriving DecidableEq

/-- `{ time: candle.openTime, open: candle.o, high: candle.h, low: candle.l, close: candle.c }`. -/
def finalizeTCandle (c : TCandle) : Candle :=
  ⟨c.openTime, c.o, c.h, c.l, c.c⟩

/-- The per-timeframe body of the loop inside `processTick`: create the
active candle when absent, close-and-reset on a boundary crossing
(emitting the old candle only when `o !== null`), then update the
(possibly new) active candle with the price.  Returns the new active
candle and the emitted closed candle, if any. -/
def stepTick (secs : Int) (price : ℚ) (epoch : Int) (active : Option TCandle) :
    TCandle × Option Candle :=
  let candle := match active with
    | none => makeTCandle secs epoch
    | some c => c
  if epoch ≥ candle.closeTime then
    (updateTCandle (makeTCandle secs epoch) price,
     if candle.o ≠ none then some (finalizeTCandle candle) else none)
  else
    (updateTCandle candle price, none)

/-- `processTick(price, epoch, activeCandles)`.  The JS loop iterates the
seven distinct labels of `TIMEFRAMES`, each iteration touching only
`activeCandles[label]` and `closed[label]`; the resulting maps are
therefore the pointwise per-label application of `stepTick`, which is how
we render them here (a label outside the table is left untouched /
absent from `closed`). -/
def processTick (price : ℚ) (epoch : Int) (ac : String → Option TCandle) :
    (String → Option TCandle) × (String → Option Candle) :=
  (fun label => match TIMEFRAMES.lookup label with
    | some secs => some (stepTick secs price epoch (ac label)).1
    | none => ac label,
   fun label => match TIMEFRAMES.lookup label with
    | some secs => (stepTick secs price epoch (ac label)).2
    | none => none)

/-- A history builder `{ openTime, o, h, l, c }` used by `makeHistoryCandles`. -/
structure HBuilder where
  openTime : Int
  o : Option ℚ
  h : Option ℚ
  l : Option ℚ
  c : Option ℚ
deriving DecidableEq

/-- The feed part of the `makeHistoryCandles` inner loop:
`if (b.o === null) b.o = q; if (q > b.h) b.h = q; if (q < b.l) b.l = q; b.c = q`. -/
def feedHBuilder (b : HBuilder) (quote : ℚ) : HBuilder :=
  { b with
    o := some (b.o.getD quote)
    h := match b.h with
      | none => some quote
      | some x => if quote > x then some quote else some x
    l := match b.l with
      | none => some quote
      | some x => if quote < x then some quote else some x
    c := some quote }

/-- `{ time: b.openTime, open: b.o, high: b.h, low: b.l, close: b.c }`. -/
def finalizeHBuilder (b : HBuilder) : Candle :=
  ⟨b.openTime, b.o, b.h, b.l, b.c⟩

/-- One tick of the `makeHistoryCandles` loop for a single timeframe:
start a new builder when absent or when the tick's bucket differs
(pushing the old builder to the output when it has data), then feed the
quote. -/
def histStep (secs : Int) (st : Option HBuilder × List Candle) (t : Tick) :
    Option HBuilder × List Candle :=
  let bucketTime := bucketStart secs t.epoch
  let bo : HBuilder × List Candle :=
    match st.1 with
    | none => (⟨bucketTime, none, none, none, none⟩, st.2)
    | some b =>
      if b.openTime ≠ bucketTime then
        (⟨bucketTime, none, none, none, none⟩,
         if b.o ≠ none then st.2 ++ [finalizeHBuilder b] else st.2)
      else (b, st.2)
  (some (feedHBuilder bo.1 t.quote), bo.2)

/-- `makeHistoryCandles(ticks)`: per timeframe label, fold the ticks
through `histStep` starting from no builder and an empty result list.
The final builder is never pushed (it is still open). -/
def makeHistoryCandles (ticks : List Tick) : String → List Candle :=
  fun label => match TIMEFRAMES.lookup label with
    | some secs => (ticks.foldl (histStep secs) (none, [])).2
    | none => []

/-- One tick of the incremental replay: run `processTick` on the current
active-candle map and append each emitted closed candle to its
timeframe's collected list. -/
def procStep (st : (String → Option TCandle) × (String → List Candle)) (t : Tick) :
    (String → Option TCandle) × (String → List Candle) :=
  ((processTick t.quote t.epoch st.1).1,
   fun label => st.2 label ++ ((processTick t.quote t.epoch st.1).2 label).toList)

/-- Feeding a whole tick list through `processTick`, starting from the
empty `activeCandles` map, collecting the emitted closed candles per
timeframe in emission order. -/
def runProcessTicks (ticks : List Tick) :
    (String → Option TCandle) × (String → List Candle) :=
  ticks.foldl procStep (fun _ => none, fun _ => [])

/-- The single-timeframe mirror of `procStep`. -/
def incStep (secs : Int) (st : Option TCandle × List Candle) (t : Tick) :
    Option TCandle × List Candle :=
  (some (stepTick secs t.quote t.epoch st.1).1,
   st.2 ++ ((stepTick secs t.quote t.epoch st.1).2).toList)

/-- The single-timeframe mirror of `runProcessTicks`. -/
def runSingle (secs : Int) (ticks : List Tick) : Option TCandle × List Candle :=
  ticks.foldl (incStep secs) (none, [])

/-! ### Tick store (tickStore.js) -/

/-- The tick buffer: `maxSize` plus the ordered list of stored ticks. -/
structure TickStore where
  maxSize : ℕ
  ticks : List Tick
deriving DecidableEq

/-- The guard at the top of `addTick`:
`this.ticks.length > 0 && epoch <= this.ticks[this.ticks.length - 1].epoch`
(both the duplicate branch and the out-of-order branch return without
mutating, so the two inner cases collapse). -/
def lastEpochBlocks (s : TickStore) (epoch : Int) : Bool :=
  match s.ticks.getLast? with
  | none => false
  | some t => epoch ≤ t.epoch

/-- `addTick(epoch, quote)`: reject when the guard fires; otherwise push
the tick and, if the length now exceeds `maxSize`, shift off the single
oldest entry. -/
def TickStore.addTick (s : TickStore) (epoch : Int) (quote : ℚ) : TickStore :=
  if lastEpochBlocks s epoch then s
  else
    { s with ticks :=
        if s.maxSize < (s.ticks ++ [Tick.mk epoch quote]).length
        then (s.ticks ++ [Tick.mk epoch quote]).tail
        else s.ticks ++ [Tick.mk epoch quote] }

/-- `clear()`. -/
def TickStore.clear (s : TickStore) : TickStore :=
  { s with ticks := [] }

/-- `getAll()`. -/
def TickStore.getAll (s : TickStore) : List Tick := s.ticks

/-- Run a whole sequence of `addTick` calls. -/
def runAdds (s : TickStore) (calls : List (Int × ℚ)) : TickStore :=
  calls.foldl (fun st c => st.addTick c.1 c.2) s

/-- The subsequence of a call sequence that `addTick` actually accepts
(simulating the evolving store to evaluate each guard). -/
def acceptedRun (s : TickStore) : List (Int × ℚ) → List Tick
  | [] => []
  | c :: rest =>
    if lastEpochBlocks s c.1 then acceptedRun s rest
    else Tick.mk c.1 c.2 :: acceptedRun (s.addTick c.1 c.2) rest

/-- The last `n` elements of a list (all of it when it is shorter). -/
def lastN (n : ℕ) (xs : List α) : List α := xs.drop (xs.length - n)

/-! ### Volatility engine (volatilityEngine.js)

Quotes pass through `Math.log` and `Math.sqrt` here, so this component
is embedded over the reals. -/

/-- `config.VOL_WINDOWS`. -/
def VOL_WINDOWS : List ℕ := [10, 30, 60, 120, 300]

/-- `config.VOL_SHORT_WINDOW`. -/
def VOL_SHORT : ℕ := 30

/-- `config.VOL_BASELINE_WINDOW`. -/
def VOL_BASELINE : ℕ := 300

/-- `config.MOMENTUM_WINDOW`. -/
def MOMENTUM_WINDOW : ℕ := 10

/-- The mutable fields of a `VolatilityEngine` instance.  `rollingVol`
is a JS object keyed by window size, modelled as a function to
`Option ℝ` (`none` covers both "key absent" and "value null"). -/
structure VolState where
  rollingVol : ℕ → Option ℝ
  volRatio : Option ℝ
  volRatioLabel : String
  volTrend : String
  vol30History : List ℝ
  momentumScore : ℝ
  momentumDirection : String

/-- The constructor's initial field values. -/
noncomputable def initVolState : VolState :=
  ⟨fun _ => none, none, "N/A", "N/A", [], 0, "NEUTRAL"⟩

/-- `_stddev(arr)`: population standard deviation, `0` on the empty
array. -/
noncomputable def stddev (arr : List ℝ) : ℝ :=
  if arr.length = 0 then 0
  else
    Real.sqrt (((arr.map fun v => (v - arr.sum / arr.length) ^ 2).sum) / arr.length)

/-- The log-return sequence `ln(ticks[i].quote / ticks[i-1].quote)` for
`i = 1 .. count-1`. -/
noncomputable def logReturns (ticks : List Tick) : List ℝ :=
  (ticks.zip ticks.tail).map fun p => Real.log ((p.2.quote : ℝ) / (p.1.quote : ℝ))

/-- The vol-ratio label thresholds. -/
noncomputable def ratioLabel (r : ℝ) : String :=
  if r ≥ 1.3 then "HIGH"
  else if r ≥ 1.1 then "ABOVE AVG"
  else if r ≥ 0.9 then "NORMAL"
  else if r ≥ 0.7 then "BELOW AVG"
  else "LOW"

/-- `update()`: recompute everything from the tick store's contents;
bail out unchanged when fewer than two ticks are buffered. -/
noncomputable def volUpdate (s : VolState) (ticks : List Tick) : VolState :=
  if ticks.length < 2 then s
  else
    let lr := logReturns ticks
    let rv : ℕ → Option ℝ := fun w =>
      if w ∈ VOL_WINDOWS then
        if w ≤ lr.length then some (stddev (lr.drop (lr.length - w))) else none
      else s.rollingVol w
    let volShort := rv VOL_SHORT
    let volBase := rv VOL_BASELINE
    let ratioPair : Option ℝ × String :=
      match volShort, volBase with
      | some vs, some vb =>
        if 0 < vb then (some (vs / vb), ratioLabel (vs / vb)) else (none, "N/A")
      | _, _ => (none, "N/A")
    let trendPair : List ℝ × String :=
      match volShort with
      | none => (s.vol30History, s.volTrend)
      | some vs =>
        let h1 := s.vol30History ++ [vs]
        let h2 := if 60 < h1.length then h1.tail else h1
        if 31 ≤ h2.length then
          (h2,
           if h2.getD (h2.length - 31) 0 * 1.05 < h2.getD (h2.length - 1) 0 then "EXPANDING"
           else if h2.getD (h2.length - 1) 0 < h2.getD (h2.length - 31) 0 * 0.95 then "CONTRACTING"
           else "STABLE")
        else (h2, s.volTrend)
    let momPair : ℝ × String :=
      if MOMENTUM_WINDOW ≤ lr.length then
        let recent := lr.drop (lr.length - MOMENTUM_WINDOW)
        let score : ℝ :=
          ((recent.countP fun r => decide (0 < r)) - (recent.countP fun r => decide (r < 0)) :
            ℤ) / (MOMENTUM_WINDOW : ℝ)
        (score,
         if (0.4 : ℝ) < score then "UP"
         else if score < (-0.4 : ℝ) then "DOWN" else "NEUTRAL")
      else (s.momentumScore, s.momentumDirection)
    { rollingVol := rv
      volRatio := ratioPair.1
      volRatioLabel := ratioPair.2
      volTrend := trendPair.2
      vol30History := trendPair.1
      momentumScore := momPair.1
      momentumDirection := momPair.2 }

/-- `getSigma(window)`: `return this.rollingVol[window] || null` — the
JS `||` turns every falsy value into `null`, so an absent entry, a
stored `null`, and a stored `0` all come back as `null`. -/
noncomputable def getSigma (s : VolState) (w : ℕ) : Option ℝ :=
  match s.rollingVol w with
  | none => none
  | some v => if v = 0 then none else some v

/-- The object returned by `getSnapshot()` (the `rollingVol` spread is
rendered as the association list over the configured windows). -/
structure VolSnapshot where
  rollingVol : List (ℕ × Option ℝ)
  volRatio : Option ℝ
  volRatioLabel : String
  volTrend : String
  momentumScore : ℝ
  momentumDirection : String

/-- `getSnapshot()`. -/
noncomputable def getSnapshot (s : VolState) : VolSnapshot :=
  ⟨VOL_WINDOWS.map fun w => (w, s.rollingVol w), s.volRatio, s.volRatioLabel,
   s.volTrend, s.momentumScore, s.momentumDirection⟩

/-! ### Probability engine (probabilityEngine.js)

`theoretical()` depends on the volatility engine and a normal-CDF
approximation, `empirical()` on an external SQLite dataset; `estimate`
combines their results.  The combination logic is embedded with the two
sub-results as parameters. -/

/-- The `{ probability, sampleSize }` object returned by `empirical()`. -/
structure EmpiricalResult where
  probability : ℚ
  sampleSize : ℕ
deriving DecidableEq

/-- The object returned by `estimate`. -/
structure ProbEstimate where
  theoretical : Option ℚ
  empirical : Option ℚ
  combined : Option ℚ
  sampleSize : ℕ
deriving DecidableEq

/-- The body of `estimate(barrierDistance, currentPrice, direction)`
after `theo = this.theoretical(...)` and `emp = this.empirical(...)`
have been computed: the `if (theo != null && emp != null) ... else if
... else if ... else ...` cascade. -/
def estimate (theo : Option ℚ) (emp : Option EmpiricalResult) : ProbEstimate :=
  match theo, emp with
  | some t, some e =>
    ⟨some t, some e.probability, some (0.6 * t + 0.4 * e.probability), e.sampleSize⟩
  | some t, none => ⟨some t, none, some t, 0⟩
  | none, some e => ⟨none, some e.probability, some e.probability, e.sampleSize⟩
  | none, none => ⟨none, none, none, 0⟩

/-! ### Edge calculator (edgeCalculator.js) -/

/-- `config.WARMUP_TICKS`. -/
def WARMUP_TICKS : ℕ := 300

/-- The object returned by `EdgeCalculator.analyze`. -/
structure EdgeResult where
  impliedProb : ℚ
  ourProb : ℚ
  theoretical : Option ℚ
  empirical : Option ℚ
  edge : ℚ
  warnings : List String
  sampleSize : ℕ
deriving DecidableEq

/-- `analyze(probEstimate, payoutROI, tickCount)`.  The two volatility
fields it reads (`this.volEngine.volRatio`, `this.volEngine.volTrend`)
are passed as parameters.  In the third warning's guard the JS
comparison `volRatio < 0.9` coerces a `null` ratio to `0`, which is the
`Option.getD _ 0` below. -/
def analyze (est : ProbEstimate) (payoutROI : ℚ) (tickCount : ℕ)
    (volRatio : Option ℚ) (volTrend : String) : EdgeResult :=
  let impliedProb : ℚ := 1 / (1 + payoutROI / 100)
  let ourProb := est.combined
  let edge : Option ℚ := match ourProb with
    | some p => some (p - impliedProb)
    | none => none
  let warnings : List String :=
    (if tickCount < WARMUP_TICKS then
      ["Warmup: " ++ toString tickCount ++ "/" ++ toString WARMUP_TICKS ++ " ticks"]
     else []) ++
    (match volRatio with
      | some r => if r < 0.7 then ["Vol Ratio below 0.7 — market quiet"] else []
      | none => []) ++
    (if volTrend = "CONTRACTING" ∧ volRatio.getD 0 < 0.9 then
      ["Vol contracting & below average"]
     else []) ++
    (match ourProb with
      | none => ["Probability unavailable — insufficient data"]
      | some _ => []) ++
    (if est.sampleSize < 500 then
      ["Low sample size: " ++ toString est.sampleSize]
     else [])
  { impliedProb := impliedProb
    ourProb := ourProb.getD 0
    theoretical := est.theoretical
    empirical := est.empirical
    edge := edge.getD 0
    warnings := warnings
    sampleSize := est.sampleSize }

/-! ### `update_config` handler (server entry point)

`ws.on('message')` parses the JSON and, for `type: 'update_config'`,
runs three independent field updates:
`if (data.barrier != null) uiConfig.barrier = parseFloat(data.barrier);`
(same for `payoutROI`) and
`if (data.direction != null) uiConfig.direction = data.direction;`.
A JS number is modelled as `Option ℚ` with `none` playing `NaN`; a
message field is `Option (Option ℚ)`, the outer layer distinguishing an
absent (`null`/`undefined`) field from a present one carrying the value
`parseFloat` produced for it (`some none` = a supplied non-numeric
string, whose `parseFloat` image is `NaN`). -/

/-- A JS number that may be `NaN`. -/
abbrev JsNum := Option ℚ

/-- The mutable `uiConfig` object. -/
structure UiConfig where
  barrier : JsNum
  payoutROI : JsNum
  direction : String
deriving DecidableEq

/-- An inbound `update_config` message, fields already taken through
`parseFloat` (see the section comment). -/
structure ConfigMsg where
  barrier : Option JsNum
  payoutROI : Option JsNum
  direction : Option String
deriving DecidableEq

/-- The three guarded assignments of the `update_config` handler. -/
def applyUpdateConfig (cfg : UiConfig) (m : ConfigMsg) : UiConfig :=
  let c1 := match m.barrier with
    | none => cfg
    | some v => { cfg with barrier := v }
  let c2 := match m.payoutROI with
    | none => c1
    | some v => { c1 with payoutROI := v }
  match m.direction with
  | none => c2
  | some d => { c2 with direction := d }

/-! ## Helper lemmas -/

lemma lookup_timeframes {label : String} {secs : Int} (h : (label, secs) ∈ TIMEFRAMES) :
    TIMEFRAMES.lookup label = some secs := by
  fin_cases h <;> decide

lemma timeframes_pos {label : String} {secs : Int} (h : (label, secs) ∈ TIMEFRAMES) :
    0 < secs := by
  fin_cases h <;> decide

lemma fdiv_eq_ediv_of_pos {s : Int} (hs : 0 < s) (a : Int) : a.fdiv s = a / s :=
  Int.fdiv_eq_ediv a hs.le

lemma bucketStart_le {s : Int} (hs : 0 < s) (e : Int) : bucketStart s e ≤ e := by
  unfold bucketStart
  rw [fdiv_eq_ediv_of_pos hs]
  exact Int.ediv_mul_le e hs.ne'

lemma lt_bucketStart_add {s : Int} (hs : 0 < s) (e : Int) : e < bucketStart s e + s := by
  unfold bucketStart
  rw [fdiv_eq_ediv_of_pos hs]
  have h := Int.lt_ediv_add_one_mul_self e hs
  rw [add_mul, one_mul] at h
  exact h

lemma bucketStart_eq_of_between {s : Int} (hs : 0 < s) {x y : Int}
    (h1 : bucketStart s x ≤ y) (h2 : y < bucketStart s x + s) :
    bucketStart s y = bucketStart s x := by
  simp only [bucketStart, fdiv_eq_ediv_of_pos hs] at h1 h2 ⊢
  have hle : x / s ≤ y / s := by
    have h := Int.ediv_le_ediv hs h1
    rwa [Int.mul_ediv_cancel _ hs.ne'] at h
  have hlt : y / s < x / s + 1 := by
    rw [Int.ediv_lt_iff_lt_mul hs, add_mul, one_mul]
    exact h2
  have heq : y / s = x / s := by omega
  rw [heq]

lemma if_gt_eq_max (x p : ℚ) : (if p > x then some p else some x) = some (max x p) := by
  rcases le_or_lt p x with h | h
  · rw [if_neg (not_lt.mpr h), max_eq_left h]
  · rw [if_pos h, max_eq_right h.le]

lemma if_lt_eq_min (x p : ℚ) : (if p < x then some p else some x) = some (min x p) := by
  rcases le_or_lt x p with h | h
  · rw [if_neg (not_lt.mpr h), min_eq_left h]
  · rw [if_pos h, min_eq_right h.le]

/-! ## Claim C8 -/

/-- C8: `updateTCandle` on a candle that has received no price yet
(`o == null`, with the untouched `-Infinity`/`Infinity` running
high/low) sets open = high = low = close = the price; on a candle that
already has data it sets high = max(high, p), low = min(low, p) and
close = p unconditionally while keeping open; no update ever changes
`openTime` or `closeTime`; and feeding 100, 90, 110 into one fresh
bucket yields open 100, high 110, low 90, close 110. -/
theorem updateTCandle_ohlc :
    (∀ (c : TCandle) (p : ℚ), c.o = none → c.h = none → c.l = none →
      updateTCandle c p = { c with o := some p, h := some p, l := some p, c := some p }) ∧
    (∀ (c : TCandle) (p ov hv lv : ℚ), c.o = some ov → c.h = some hv → c.l = some lv →
      updateTCandle c p =
        { c with o := some ov, h := some (max hv p), l := some (min lv p), c := some p }) ∧
    (∀ (c : TCandle) (p : ℚ),
      (updateTCandle c p).openTime = c.openTime ∧
      (updateTCandle c p).closeTime = c.closeTime) ∧
    ((updateTCandle (updateTCandle (updateTCandle (makeTCandle 5 10000) 100) 90) 110).o
        = some 100 ∧
     (updateTCandle (updateTCandle (updateTCandle (makeTCandle 5 10000) 100) 90) 110).h
        = some 110 ∧
     (updateTCandle (updateTCandle (updateTCandle (makeTCandle 5 10000) 100) 90) 110).l
        = some 90 ∧
     (updateTCandle (updateTCandle (updateTCandle (makeTCandle 5 10000) 100) 90) 110).c
        = some 110) := by
  refine ⟨?_, ?_, ?_, by decide⟩
  · intro c p ho hh hl
    simp [updateTCandle, ho, hh, hl]
  · intro c p ov hv lv ho hh hl
    simp only [updateTCandle, ho, hh, hl, Option.getD_some, if_gt_eq_max, if_lt_eq_min]
  · intro c p
    exact ⟨rfl, rfl⟩

/-- Witness for C8 at a concrete candle and prices. -/
theorem updateTCandle_ohlc_witness :
    updateTCandle (makeTCandle 5 10000) 100 =
      { makeTCandle 5 10000 with
        o := some 100, h := some 100, l := some 100, c := some 100 } ∧
    updateTCandle (updateTCandle (makeTCandle 5 10000) 100) 90 =
      { updateTCandle (makeTCandle 5 10000) 100 with
        o := some 100, h := some (max 100 90), l := some (min 100 90), c := some 90 } :=
  ⟨updateTCandle_ohlc.1 (makeTCandle 5 10000) 100 rfl rfl rfl,
   updateTCandle_ohlc.2.1 (updateTCandle (makeTCandle 5 10000) 100) 90 100 100 100
     (by decide) (by decide) (by decide)⟩

/-! ## Claim C2 -/

/-- C2: for every `processTick(price, epoch, activeCandles)` call and
every timeframe `(label, secs)` of the table whose active candle is `c`:
when `epoch ≥ c.closeTime` the candle is emitted iff its open is
non-null and the active candle becomes exactly one fresh bucket aligned
to `floor(epoch/secs)*secs` (updated with the price), so at most one
close-and-reset happens per timeframe per tick and skipped buckets are
never emitted; when `epoch < c.closeTime` nothing is emitted and the
same candle is updated with the price. -/
theorem processTick_close_and_reset (price : ℚ) (epoch : Int)
    (ac : String → Option TCandle) (label : String) (secs : Int)
    (hmem : (label, secs) ∈ TIMEFRAMES) (c : TCandle) (hac : ac label = some c) :
    (c.closeTime ≤ epoch →
      (processTick price epoch ac).2 label =
        (if c.o ≠ none then some (finalizeTCandle c) else none) ∧
      (processTick price epoch ac).1 label =
        some (updateTCandle (makeTCandle secs epoch) price) ∧
      (makeTCandle secs epoch).openTime = epoch.fdiv secs * secs ∧
      (makeTCandle secs epoch).closeTime = (makeTCandle secs epoch).openTime + secs) ∧
    (epoch < c.closeTime →
      (processTick price epoch ac).2 label = none ∧
      (processTick price epoch ac).1 label = some (updateTCandle c price)) := by
  have hl := lookup_timeframes hmem
  constructor
  · intro h
    refine ⟨?_, ?_, rfl, rfl⟩ <;>
      simp [processTick, hl, hac, stepTick, ge_iff_le, h]
  · intro h
    constructor <;>
      simp [processTick, hl, hac, stepTick, ge_iff_le, not_le.mpr h]

/-- Witness for C2: the boundary-crossing scenario of the repository's
test suite (`5s` candle seeded at epoch 10001, tick at 10006). -/
theorem processTick_close_and_reset_witness :
    ((processTick (5 / 4) 10006
        (fun _ => some (updateTCandle (makeTCandle 5 10001) (123 / 100)))).2 "5s" =
      (if (updateTCandle (makeTCandle 5 10001) (123 / 100)).o ≠ none then
        some (finalizeTCandle (updateTCandle (makeTCandle 5 10001) (123 / 100)))
       else none) ∧
     (processTick (5 / 4) 10006
        (fun _ => some (updateTCandle (makeTCandle 5 10001) (123 / 100)))).1 "5s" =
      some (updateTCandle (makeTCandle 5 10006) (5 / 4)) ∧
     (makeTCandle 5 10006).openTime = (10006 : Int).fdiv 5 * 5 ∧
     (makeTCandle 5 10006).closeTime = (makeTCandle 5 10006).openTime + 5) :=
  (processTick_close_and_reset (5 / 4) 10006
    (fun _ => some (updateTCandle (makeTCandle 5 10001) (123 / 100))) "5s" 5
    (by decide) (updateTCandle (makeTCandle 5 10001) (123 / 100)) rfl).1 (by decide)

/-! ## Claim C10 -/

lemma foldl_min_le (ps : List ℚ) : ∀ (a x : ℚ), x = a ∨ x ∈ ps → ps.foldl min a ≤ x := by
  induction ps with
  | nil =>
    rintro a x (rfl | hx)
    · exact le_refl x
    · exact absurd hx (List.not_mem_nil x)
  | cons q qs ih =>
    rintro a x (rfl | hx)
    · exact le_trans (ih (min x q) (min x q) (Or.inl rfl)) (min_le_left x q)
    · rcases List.mem_cons.mp hx with rfl | hx
      · exact le_trans (ih (min a x) (min a x) (Or.inl rfl)) (min_le_right a x)
      · exact ih (min a q) x (Or.inr hx)

lemma le_foldl_max (ps : List ℚ) : ∀ (a x : ℚ), x = a ∨ x ∈ ps → x ≤ ps.foldl max a := by
  induction ps with
  | nil =>
    rintro a x (rfl | hx)
    · exact le_refl x
    · exact absurd hx (List.not_mem_nil x)
  | cons q qs ih =>
    rintro a x (rfl | hx)
    · exact le_trans (le_max_left x q) (ih (max x q) (max x q) (Or.inl rfl))
    · rcases List.mem_cons.mp hx with rfl | hx
      · exact le_trans (le_max_right a x) (ih (max a x) (max a x) (Or.inl rfl))
      · exact ih (max a q) x (Or.inr hx)

lemma getLastD_cases (ps : List ℚ) (a : ℚ) : ps.getLastD a = a ∨ ps.getLastD a ∈ ps := by
  have h := List.getLastD_mem_cons ps a
  rcases List.mem_cons.mp h with h | h
  · exact Or.inl h
  · exact Or.inr h

lemma foldl_update_fields (ps : List ℚ) :
    ∀ (c : TCandle) (ov hv lv cv : ℚ),
      c.o = some ov → c.h = some hv → c.l = some lv → c.c = some cv →
      (ps.foldl updateTCandle c).o = some ov ∧
      (ps.foldl updateTCandle c).h = some (ps.foldl max hv) ∧
      (ps.foldl updateTCandle c).l = some (ps.foldl min lv) ∧
      (ps.foldl updateTCandle c).c = some (ps.getLastD cv) := by
  induction ps with
  | nil =>
    intro c ov hv lv cv ho hh hl hc
    exact ⟨ho, hh, hl, hc⟩
  | cons q qs ih =>
    intro c ov hv lv cv ho hh hl hc
    rw [List.foldl_cons, List.foldl_cons, List.foldl_cons, List.getLastD_cons]
    refine ih (updateTCandle c q) ov (max hv q) (min lv q) q ?_ ?_ ?_ rfl
    · simp [updateTCandle, ho]
    · simp only [updateTCandle, hh, if_gt_eq_max]
    · simp only [updateTCandle, hl, if_lt_eq_min]

/-- C10: a candle built by `makeTCandle` and fed any non-empty price
sequence has open = the first price, high = the running max, low = the
running min, close = the last price, hence satisfies
low ≤ open ≤ high and low ≤ close ≤ high; feeding one more price is the
same statement for the extended sequence, so every further
`updateTCandle` call preserves the invariant. -/
theorem candle_ohlc_invariant (secs e : Int) (p : ℚ) (ps : List ℚ) :
    ((p :: ps).foldl updateTCandle (makeTCandle secs e)).o = some p ∧
    ((p :: ps).foldl updateTCandle (makeTCandle secs e)).h = some (ps.foldl max p) ∧
    ((p :: ps).foldl updateTCandle (makeTCandle secs e)).l = some (ps.foldl min p) ∧
    ((p :: ps).foldl updateTCandle (makeTCandle secs e)).c = some (ps.getLastD p) ∧
    ps.foldl min p ≤ p ∧ p ≤ ps.foldl max p ∧
    ps.foldl min p ≤ ps.getLastD p ∧ ps.getLastD p ≤ ps.foldl max p := by
  have hfirst : updateTCandle (makeTCandle secs e) p =
      { makeTCandle secs e with o := some p, h := some p, l := some p, c := some p } := by
    simp [updateTCandle, makeTCandle]
  have hf := foldl_update_fields ps (updateTCandle (makeTCandle secs e) p) p p p p
    (by rw [hfirst]) (by rw [hfirst]) (by rw [hfirst]) (by rw [hfirst])
  rw [List.foldl_cons]
  refine ⟨hf.1, hf.2.1, hf.2.2.1, hf.2.2.2, ?_, ?_, ?_, ?_⟩
  · exact foldl_min_le ps p p (Or.inl rfl)
  · exact le_foldl_max ps p p (Or.inl rfl)
  · exact foldl_min_le ps p _ (getLastD_cases ps p)
  · exact le_foldl_max ps p _ (getLastD_cases ps p)

/-! ## Claim C1 -/

/-- The coupling between an active candle and a history builder: same
bucket, same OHLC fields. -/
def CandleMatches (c : TCandle) (b : HBuilder) : Prop :=
  c.openTime = b.openTime ∧ c.o = b.o ∧ c.h = b.h ∧ c.l = b.l ∧ c.c = b.c

lemma update_feed_matches {c : TCandle} {b : HBuilder} (h : CandleMatches c b) (p : ℚ) :
    CandleMatches (updateTCandle c p) (feedHBuilder b p) := by
  obtain ⟨h1, h2, h3, h4, h5⟩ := h
  refine ⟨h1, ?_, ?_, ?_, rfl⟩
  · simp [updateTCandle, feedHBuilder, h2]
  · simp only [updateTCandle, feedHBuilder, h3]
  · simp only [updateTCandle, feedHBuilder, h4]

lemma runSingle_eq_hist (secs : Int) (hs : 0 < secs) :
    ∀ (ticks : List Tick) (c : TCandle) (b : HBuilder) (acc : List Candle) (e : Int),
      CandleMatches c b →
      c.closeTime = c.openTime + secs →
      c.openTime = bucketStart secs e →
      c.o ≠ none →
      List.Chain (· < ·) e (ticks.map Tick.epoch) →
      (ticks.foldl (incStep secs) (some c, acc)).2 =
      (ticks.foldl (histStep secs) (some b, acc)).2 := by
  intro ticks
  induction ticks with
  | nil => intro c b acc e _ _ _ _ _; rfl
  | cons t ts ih =>
    intro c b acc e hm hclose hopen ho hchain
    rw [List.map_cons, List.chain_cons] at hchain
    obtain ⟨hlt, hchain⟩ := hchain
    obtain ⟨hm1, hm2, hm3, hm4, hm5⟩ := hm
    rw [List.foldl_cons, List.foldl_cons]
    by_cases hcross : c.closeTime ≤ t.epoch
    · have hstep : incStep secs (some c, acc) t =
          (some (updateTCandle (makeTCandle secs t.epoch) t.quote),
           acc ++ [finalizeTCandle c]) := by
        simp [incStep, stepTick, ge_iff_le, hcross, ho]
      have hbp : b.openTime ≠ bucketStart secs t.epoch := by
        rw [← hm1]
        intro hEq
        have hb := lt_bucketStart_add hs t.epoch
        rw [← hEq, ← hclose] at hb
        exact absurd hcross (not_le.mpr hb)
      have hbo : b.o ≠ none := by rw [← hm2]; exact ho
      have hhist : histStep secs (some b, acc) t =
          (some (feedHBuilder ⟨bucketStart secs t.epoch, none, none, none, none⟩ t.quote),
           acc ++ [finalizeHBuilder b]) := by
        simp [histStep, hbp, hbo]
      have hfin : finalizeTCandle c = finalizeHBuilder b := by
        simp [finalizeTCandle, finalizeHBuilder, hm1, hm2, hm3, hm4, hm5]
      rw [hstep, hhist, hfin]
      apply ih _ _ _ t.epoch
      · exact update_feed_matches ⟨rfl, rfl, rfl, rfl, rfl⟩ t.quote
      · rfl
      · rfl
      · simp [updateTCandle]
      · exact hchain
    · have hstep : incStep secs (some c, acc) t = (some (updateTCandle c t.quote), acc) := by
        simp [incStep, stepTick, ge_iff_le, hcross]
      have hbeq : bucketStart secs t.epoch = c.openTime := by
        rw [hopen]
        apply bucketStart_eq_of_between hs
        · exact le_trans (bucketStart_le hs e) hlt.le
        · rw [← hopen, ← hclose]
          exact lt_of_not_le hcross
      have hhist : histStep secs (some b, acc) t = (some (feedHBuilder b t.quote), acc) := by
        have hbne : ¬ b.openTime ≠ bucketStart secs t.epoch := by
          rw [← hm1, hbeq]
          exact fun hne => hne rfl
        simp [histStep, hbne]
      rw [hstep, hhist]
      apply ih _ _ _ t.epoch
      · exact update_feed_matches ⟨hm1, hm2, hm3, hm4, hm5⟩ t.quote
      · exact hclose
      · exact hbeq.symm
      · simp [updateTCandle]
      · exact hchain

lemma runProcessTicks_label (label : String) (secs : Int)
    (hl : TIMEFRAMES.lookup label = some secs) :
    ∀ (ticks : List Tick) (st : (String → Option TCandle) × (String → List Candle))
      (s : Option TCandle × List Candle),
      st.1 label = s.1 → st.2 label = s.2 →
      (ticks.foldl procStep st).1 label = (ticks.foldl (incStep secs) s).1 ∧
      (ticks.foldl procStep st).2 label = (ticks.foldl (incStep secs) s).2 := by
  intro ticks
  induction ticks with
  | nil => intro st s h1 h2; exact ⟨h1, h2⟩
  | cons t ts ih =>
    intro st s h1 h2
    rw [List.foldl_cons, List.foldl_cons]
    apply ih
    · simp [procStep, processTick, incStep, hl, h1]
    · simp [procStep, processTick, incStep, hl, h1, h2]

/-- C1: over any tick sequence with strictly increasing epochs and any
timeframe of the table, replaying the ticks one at a time through
`processTick` from an empty active-candle map and collecting the closed
candles in emission order gives exactly the candle list `makeHistoryCandles`
computes in one batch pass. -/
theorem batch_incremental_agree (ticks : List Tick)
    (hinc : List.Chain' (· < ·) (ticks.map Tick.epoch))
    (label : String) (secs : Int) (hmem : (label, secs) ∈ TIMEFRAMES) :
    (runProcessTicks ticks).2 label = makeHistoryCandles ticks label := by
  have hl := lookup_timeframes hmem
  have hs := timeframes_pos hmem
  have hrun := (runProcessTicks_label label secs hl ticks
    (fun _ => none, fun _ => []) (none, []) rfl rfl).2
  simp only [makeHistoryCandles, hl]
  rw [runProcessTicks, hrun]
  cases ticks with
  | nil => rfl
  | cons t ts =>
    rw [List.foldl_cons, List.foldl_cons]
    have h1 : incStep secs ((none : Option TCandle), ([] : List Candle)) t =
        (some (updateTCandle (makeTCandle secs t.epoch) t.quote), []) := by
      have hno : ¬ (makeTCandle secs t.epoch).closeTime ≤ t.epoch := by
        simp only [makeTCandle, not_le]
        exact lt_bucketStart_add hs t.epoch
      simp [incStep, stepTick, ge_iff_le, hno]
    have h2 : histStep secs ((none : Option HBuilder), ([] : List Candle)) t =
        (some (feedHBuilder ⟨bucketStart secs t.epoch, none, none, none, none⟩ t.quote),
         []) := rfl
    rw [h1, h2]
    apply runSingle_eq_hist secs hs ts _ _ _ t.epoch
    · exact update_feed_matches ⟨rfl, rfl, rfl, rfl, rfl⟩ t.quote
    · rfl
    · rfl
    · simp [updateTCandle]
    · rw [List.map_cons] at hinc
      exact hinc

/-- Witness for C1: the tick sequence of the repository's
`makeHistoryCandles` unit test, at the 5s timeframe. -/
theorem batch_incremental_agree_witness :
    (runProcessTicks
        [⟨10001, 100⟩, ⟨10003, 105⟩, ⟨10006, 102⟩, ⟨10008, 90⟩, ⟨10015, 110⟩]).2 "5s" =
      makeHistoryCandles
        [⟨10001, 100⟩, ⟨10003, 105⟩, ⟨10006, 102⟩, ⟨10008, 90⟩, ⟨10015, 110⟩] "5s" :=
  batch_incremental_agree
    [⟨10001, 100⟩, ⟨10003, 105⟩, ⟨10006, 102⟩, ⟨10008, 90⟩, ⟨10015, 110⟩]
    (by norm_num [List.chain'_cons]) "5s" 5 (by decide)

/-! ## Claim C5 -/

lemma addTick_blocked {s : TickStore} {e : Int} (q : ℚ)
    (h : lastEpochBlocks s e = true) : s.addTick e q = s := by
  simp [TickStore.addTick, h]

lemma addTick_not_blocked {s : TickStore} {e : Int} (q : ℚ)
    (h : lastEpochBlocks s e = false) :
    (s.addTick e q).ticks =
      if s.maxSize < s.ticks.length + 1
      then (s.ticks ++ [Tick.mk e q]).tail
      else s.ticks ++ [Tick.mk e q] := by
  simp [TickStore.addTick, h]

lemma addTick_maxSize (s : TickStore) (e : Int) (q : ℚ) :
    (s.addTick e q).maxSize = s.maxSize := by
  unfold TickStore.addTick
  split
  · rfl
  · rfl

lemma addTick_length {s : TickStore} (e : Int) (q : ℚ)
    (h : s.ticks.length ≤ s.maxSize) :
    (s.addTick e q).ticks.length ≤ s.maxSize := by
  cases hb : lastEpochBlocks s e with
  | true => rw [addTick_blocked q hb]; exact h
  | false =>
    rw [addTick_not_blocked q hb]
    split
    · simp only [List.length_tail, List.length_append, List.length_singleton]
      omega
    · simp only [List.length_append, List.length_singleton]
      omega

lemma addTick_chain {s : TickStore} (e : Int) (q : ℚ)
    (h : List.Chain' (· < ·) (s.ticks.map Tick.epoch)) :
    List.Chain' (· < ·) ((s.addTick e q).ticks.map Tick.epoch) := by
  cases hb : lastEpochBlocks s e with
  | true => rw [addTick_blocked q hb]; exact h
  | false =>
    have happ : List.Chain' (· < ·) ((s.ticks ++ [Tick.mk e q]).map Tick.epoch) := by
      rw [List.map_append, List.chain'_append]
      refine ⟨h, List.chain'_singleton _, ?_⟩
      intro x hx y hy
      rw [List.getLast?_map] at hx
      unfold lastEpochBlocks at hb
      cases hlast : s.ticks.getLast? with
      | none => rw [hlast] at hx; simp at hx
      | some t =>
        rw [hlast] at hb hx
        simp only [decide_eq_false_iff_not, not_le] at hb
        have hx1 : t.epoch = x := by simpa using hx
        have hy1 : e = y := by simpa using hy
        rw [← hx1, ← hy1]
        exact hb
    rw [addTick_not_blocked q hb]
    split
    · rw [List.map_tail]
      exact happ.tail
    · exact happ

lemma runAdds_cons (s : TickStore) (c : Int × ℚ) (rest : List (Int × ℚ)) :
    runAdds s (c :: rest) = runAdds (s.addTick c.1 c.2) rest := rfl

lemma runAdds_invariant : ∀ (calls : List (Int × ℚ)) (s : TickStore),
    s.ticks.length ≤ s.maxSize →
    List.Chain' (· < ·) (s.ticks.map Tick.epoch) →
    (runAdds s calls).maxSize = s.maxSize ∧
    (runAdds s calls).ticks.length ≤ s.maxSize ∧
    List.Chain' (· < ·) ((runAdds s calls).ticks.map Tick.epoch) := by
  intro calls
  induction calls with
  | nil => intro s h1 h2; exact ⟨rfl, h1, h2⟩
  | cons c rest ih =>
    intro s h1 h2
    rw [runAdds_cons]
    have hmax := addTick_maxSize s c.1 c.2
    obtain ⟨i1, i2, i3⟩ := ih (s.addTick c.1 c.2)
      (hmax ▸ addTick_length c.1 c.2 h1) (addTick_chain c.1 c.2 h2)
    exact ⟨i1.trans hmax, hmax ▸ i2, i3⟩

lemma lastN_all {n : ℕ} {xs : List α} (h : xs.length ≤ n) : lastN n xs = xs := by
  unfold lastN
  rw [Nat.sub_eq_zero_of_le h, List.drop_zero]

lemma lastN_lastN_append (n : ℕ) (xs ys : List α) :
    lastN n (lastN n xs ++ ys) = lastN n (xs ++ ys) := by
  rcases le_or_lt xs.length n with hk | hk
  · rw [lastN_all hk]
  · have hkle : xs.length - n ≤ xs.length := Nat.sub_le _ _
    have hsplit : List.drop (xs.length - n) (xs ++ ys) = List.drop (xs.length - n) xs ++ ys :=
      List.drop_append_of_le_length hkle
    unfold lastN
    have hlen : (List.drop (xs.length - n) xs).length = n := by
      rw [List.length_drop]
      omega
    rw [List.length_append, List.length_append, hlen]
    have h1 : n + ys.length - n = ys.length := by omega
    have h2 : xs.length + ys.length - n = (xs.length - n) + ys.length := by omega
    rw [h1, h2, ← List.drop_drop, hsplit]

lemma runAdds_eq_lastN_accepted : ∀ (calls : List (Int × ℚ)) (s : TickStore),
    s.ticks.length ≤ s.maxSize →
    (runAdds s calls).ticks = lastN s.maxSize (s.ticks ++ acceptedRun s calls) := by
  intro calls
  induction calls with
  | nil =>
    intro s h
    rw [acceptedRun, List.append_nil]
    exact (lastN_all h).symm
  | cons c rest ih =>
    intro s h
    cases hb : lastEpochBlocks s c.1 with
    | true =>
      have hacc : acceptedRun s (c :: rest) = acceptedRun s rest := by
        rw [acceptedRun, if_pos hb]
      rw [runAdds_cons, addTick_blocked c.2 hb, hacc]
      exact ih s h
    | false =>
      have hacc : acceptedRun s (c :: rest) =
          Tick.mk c.1 c.2 :: acceptedRun (s.addTick c.1 c.2) rest := by
        rw [acceptedRun, if_neg (by rw [hb]; exact Bool.false_ne_true)]
      have hmax := addTick_maxSize s c.1 c.2
      have hlen := addTick_length c.1 c.2 h
      have hstep : (s.addTick c.1 c.2).ticks =
          lastN s.maxSize (s.ticks ++ [Tick.mk c.1 c.2]) := by
        rw [addTick_not_blocked c.2 hb]
        split
        · unfold lastN
          rw [List.length_append, List.length_singleton]
          have hone : s.ticks.length + 1 - s.maxSize = 1 := by omega
          rw [hone, List.drop_one]
        · exact (lastN_all
            (by rw [List.length_append, List.length_singleton]; omega)).symm
      rw [runAdds_cons, hacc, ih (s.addTick c.1 c.2) (hmax ▸ hlen), hmax, hstep,
        lastN_lastN_append, List.append_assoc]
      rfl

/-- C5: starting from an empty store of capacity `M`, after any
sequence of `addTick` calls the store holds at most `M` ticks in
strictly increasing epoch order; a call whose epoch is at most the last
stored epoch never changes the store; and the final contents are
exactly the most recent `min(accepted, M)` accepted ticks (oldest
evicted first). -/
theorem tickStore_fifo (M : ℕ) (calls : List (Int × ℚ)) :
    (runAdds ⟨M, []⟩ calls).ticks.length ≤ M ∧
    List.Chain' (· < ·) ((runAdds ⟨M, []⟩ calls).ticks.map Tick.epoch) ∧
    (∀ (s : TickStore) (e : Int) (q : ℚ) (t : Tick),
      s.ticks.getLast? = some t → e ≤ t.epoch → s.addTick e q = s) ∧
    (runAdds ⟨M, []⟩ calls).ticks = lastN M (acceptedRun ⟨M, []⟩ calls) := by
  obtain ⟨i1, i2, i3⟩ := runAdds_invariant calls ⟨M, []⟩ (by simp) (by simp)
  refine ⟨i2, i3, ?_, ?_⟩
  · intro s e q t hlast hle
    apply addTick_blocked
    unfold lastEpochBlocks
    rw [hlast]
    exact decide_eq_true hle
  · have h := runAdds_eq_lastN_accepted calls ⟨M, []⟩ (by simp)
    rwa [List.nil_append] at h

/-- Witness for C5: a concrete overflow-plus-duplicate call sequence at
capacity 3, and a concrete rejected (duplicate-epoch) call. -/
theorem tickStore_fifo_witness :
    (runAdds ⟨3, []⟩ [(1, 10), (2, 11), (2, 12), (3, 13), (4, 14)]).ticks =
      lastN 3 (acceptedRun ⟨3, []⟩ [(1, 10), (2, 11), (2, 12), (3, 13), (4, 14)]) ∧
    TickStore.addTick ⟨3, [Tick.mk 5 1]⟩ 5 2 = ⟨3, [Tick.mk 5 1]⟩ :=
  ⟨(tickStore_fifo 3 [(1, 10), (2, 11), (2, 12), (3, 13), (4, 14)]).2.2.2,
   (tickStore_fifo 3 []).2.2.1 ⟨3, [Tick.mk 5 1]⟩ 5 2 (Tick.mk 5 1) (by decide) (by decide)⟩

/-! ## Claim C3 -/

/-- Counterexample to C3 as stated: a supplied non-numeric `barrier`
(whose `parseFloat` image is `NaN`, modelled `some none`) is *not*
ignored — the handler stores the `NaN`, changing `uiConfig.barrier`
away from its previous value `2`. -/
theorem updateConfig_nan_counterexample :
    applyUpdateConfig ⟨some 2, some 109, "up"⟩ ⟨some none, none, none⟩ ≠
      ⟨some 2, some 109, "up"⟩ ∧
    (applyUpdateConfig ⟨some 2, some 109, "up"⟩ ⟨some none, none, none⟩).barrier = none := by
  decide

/-- C3 amended: the handler applies the three fields independently — 
each stored field depends only on its own message field and its own old
value, so a malformed field never blocks the others — and an *absent*
(`null`/`undefined`) field leaves its stored field unchanged; but a
present non-numeric value is stored as `NaN` rather than ignored. -/
theorem updateConfig_fieldwise (cfg : UiConfig) (m : ConfigMsg) :
    (applyUpdateConfig cfg m).barrier =
      (match m.barrier with | none => cfg.barrier | some v => v) ∧
    (applyUpdateConfig cfg m).payoutROI =
      (match m.payoutROI with | none => cfg.payoutROI | some v => v) ∧
    (applyUpdateConfig cfg m).direction =
      (match m.direction with | none => cfg.direction | some d => d) ∧
    (m.barrier = none → (applyUpdateConfig cfg m).barrier = cfg.barrier) ∧
    (m.payoutROI = none → (applyUpdateConfig cfg m).payoutROI = cfg.payoutROI) := by
  obtain ⟨b, p, d⟩ := m
  refine ⟨?_, ?_, ?_, ?_, ?_⟩ <;>
    cases b <;> cases p <;> cases d <;> simp [applyUpdateConfig]

/-- Witness for C3 (amended): a message with a malformed barrier, an
absent payout and a new direction still applies the direction and
leaves the payout untouched. -/
theorem updateConfig_fieldwise_witness :
    (applyUpdateConfig ⟨some 2, some 109, "up"⟩ ⟨some none, none, some "down"⟩).direction
        = "down" ∧
    (applyUpdateConfig ⟨some 2, some 109, "up"⟩ ⟨some none, none, some "down"⟩).payoutROI
        = some 109 :=
  ⟨(updateConfig_fieldwise ⟨some 2, some 109, "up"⟩ ⟨some none, none, some "down"⟩).2.2.1,
   (updateConfig_fieldwise ⟨some 2, some 109, "up"⟩ ⟨some none, none, some "down"⟩).2.2.2.2
     rfl⟩

/-! ## Claim C6 -/

/-- Counterexample to C6 as stated: with `theoretical = 0.5` and
`empirical.probability = 0.7` the code combines to
`0.6*0.5 + 0.4*0.7 = 0.58`, not the `0.62` the claim's example
asserts. -/
theorem estimate_example_counterexample :
    (estimate (some (1 / 2)) (some ⟨7 / 10, 1000⟩)).combined = some (29 / 50) ∧
    some ((29 : ℚ) / 50) ≠ some ((62 : ℚ) / 100) := by
  constructor
  · show some ((0.6 : ℚ) * (1 / 2) + 0.4 * (7 / 10)) = some (29 / 50)
    norm_num
  · simp only [ne_eq, Option.some_inj]
    norm_num

/-- C6 amended: `estimate` blends `0.6*theoretical +
0.4*empirical.probability` with the empirical sample size when both are
present, returns the single present value (sample size 0 unless it is
the empirical one) when exactly one is present, and null with sample
size 0 when neither is — `theoretical=0.5, empirical=0.7` giving
`combined = 0.58`. -/
theorem estimate_combination (theo : Option ℚ) (emp : Option EmpiricalResult) :
    (∀ t e, theo = some t → emp = some e →
      estimate theo emp =
        ⟨some t, some e.probability, some (0.6 * t + 0.4 * e.probability), e.sampleSize⟩) ∧
    (∀ t, theo = some t → emp = none → estimate theo emp = ⟨some t, none, some t, 0⟩) ∧
    (∀ e, theo = none → emp = some e →
      estimate theo emp = ⟨none, some e.probability, some e.probability, e.sampleSize⟩) ∧
    (theo = none → emp = none → estimate theo emp = ⟨none, none, none, 0⟩) ∧
    (estimate (some (1 / 2)) (some ⟨7 / 10, 1000⟩)).combined = some (29 / 50) := by
  refine ⟨?_, ?_, ?_, ?_, ?_⟩
  · rintro t e rfl rfl; rfl
  · rintro t rfl rfl; rfl
  · rintro e rfl rfl; rfl
  · rintro rfl rfl; rfl
  · show some ((0.6 : ℚ) * (1 / 2) + 0.4 * (7 / 10)) = some (29 / 50)
    norm_num

/-- Witness for C6 (amended) at `theoretical = 0.5`,
`empirical = { probability := 0.7, sampleSize := 1000 }`. -/
theorem estimate_combination_witness :
    estimate (some (1 / 2)) (some ⟨7 / 10, 1000⟩) =
      ⟨some (1 / 2), some (7 / 10), some (0.6 * (1 / 2) + 0.4 * (7 / 10)), 1000⟩ :=
  (estimate_combination (some (1 / 2)) (some ⟨7 / 10, 1000⟩)).1 (1 / 2) ⟨7 / 10, 1000⟩
    rfl rfl

/-! ## Claim C7 -/

/-- C7: `analyze` always returns `impliedProb = 1/(1 + payout/100)`;
with a non-null combined probability the edge is `combined − implied`;
with a null combined probability both `edge` and `ourProb` come back as
`0` (not null) and the warnings include the probability-unavailable
message, keeping the output schema structurally complete. -/
theorem analyze_edge_spec (est : ProbEstimate) (payoutROI : ℚ) (tickCount : ℕ)
    (volRatio : Option ℚ) (volTrend : String) :
    (analyze est payoutROI tickCount volRatio volTrend).impliedProb =
      1 / (1 + payoutROI / 100) ∧
    (∀ c, est.combined = some c →
      (analyze est payoutROI tickCount volRatio volTrend).edge =
        c - 1 / (1 + payoutROI / 100) ∧
      (analyze est payoutROI tickCount volRatio volTrend).ourProb = c) ∧
    (est.combined = none →
      (analyze est payoutROI tickCount volRatio volTrend).edge = 0 ∧
      (analyze est payoutROI tickCount volRatio volTrend).ourProb = 0 ∧
      "Probability unavailable — insufficient data" ∈
        (analyze est payoutROI tickCount volRatio volTrend).warnings) := by
  refine ⟨rfl, ?_, ?_⟩
  · intro c hc
    constructor <;> simp [analyze, hc]
  · intro hc
    refine ⟨?_, ?_, ?_⟩ <;> simp [analyze, hc]

/-- Witness for C7: a null combined probability at payout 109. -/
theorem analyze_edge_spec_witness :
    (analyze (estimate none none) 109 500 none "N/A").edge = 0 ∧
    (analyze (estimate none none) 109 500 none "N/A").ourProb = 0 ∧
    "Probability unavailable — insufficient data" ∈
      (analyze (estimate none none) 109 500 none "N/A").warnings :=
  (analyze_edge_spec (estimate none none) 109 500 none "N/A").2.2 rfl

/-! ## Claims C9 and C4 -/

lemma volUpdate_rollingVol (s : VolState) (ticks : List Tick)
    (h2 : ¬ ticks.length < 2) (w : ℕ) :
    (volUpdate s ticks).rollingVol w =
      if w ∈ VOL_WINDOWS then
        (if w ≤ (logReturns ticks).length
         then some (stddev ((logReturns ticks).drop ((logReturns ticks).length - w)))
         else none)
      else s.rollingVol w := by
  rw [volUpdate, if_neg h2]

/-- C9: `update()` with fewer than two buffered ticks returns without
touching any engine field, so `getSigma` and `getSnapshot` keep serving
the previously computed values; in particular this holds for the empty
buffer right after `TickStore.clear()` and still after one single new
tick. -/
theorem volUpdate_frame (s : VolState) (ticks : List Tick) :
    (ticks.length < 2 →
      volUpdate s ticks = s ∧
      getSnapshot (volUpdate s ticks) = getSnapshot s ∧
      ∀ w, getSigma (volUpdate s ticks) w = getSigma s w) ∧
    (∀ st : TickStore, volUpdate s (TickStore.clear st).getAll = s) ∧
    (∀ (st : TickStore) (e : Int) (q : ℚ),
      volUpdate s ((TickStore.clear st).addTick e q).getAll = s) := by
  have hbase : ∀ ts : List Tick, ts.length < 2 → volUpdate s ts = s := by
    intro ts h
    rw [volUpdate, if_pos h]
  refine ⟨?_, ?_, ?_⟩
  · intro h
    have he := hbase ticks h
    exact ⟨he, by rw [he], fun w => by rw [he]⟩
  · intro st
    exact hbase _ (by simp [TickStore.clear, TickStore.getAll])
  · intro st e q
    apply hbase
    show (((TickStore.clear st).addTick e q).ticks).length < 2
    have hbf : lastEpochBlocks (TickStore.clear st) e = false := rfl
    rw [addTick_not_blocked q hbf]
    split <;> simp [TickStore.clear]

/-- Witness for C9: one buffered tick, and a cleared concrete store. -/
theorem volUpdate_frame_witness :
    volUpdate initVolState [⟨0, 1⟩] = initVolState ∧
    volUpdate initVolState (TickStore.clear ⟨3, [⟨1, 2⟩]⟩).getAll = initVolState :=
  ⟨((volUpdate_frame initVolState [⟨0, 1⟩]).1 (by decide)).1,
   (volUpdate_frame initVolState []).2.1 ⟨3, [⟨1, 2⟩]⟩⟩

/-- Counterexample to C4 as stated: eleven equal quotes produce ten
zero log-returns, so the σ computed for window 10 is exactly `0` — it
is stored in `rollingVol`, yet `getSigma(10)` returns `null` rather
than that value, because `rollingVol[window] || null` collapses a falsy
`0` to `null`. -/
theorem getSigma_zero_counterexample :
    (volUpdate initVolState
      [⟨0, 1⟩, ⟨0, 1⟩, ⟨0, 1⟩, ⟨0, 1⟩, ⟨0, 1⟩, ⟨0, 1⟩,
       ⟨0, 1⟩, ⟨0, 1⟩, ⟨0, 1⟩, ⟨0, 1⟩, ⟨0, 1⟩]).rollingVol 10 = some 0 ∧
    getSigma (volUpdate initVolState
      [⟨0, 1⟩, ⟨0, 1⟩, ⟨0, 1⟩, ⟨0, 1⟩, ⟨0, 1⟩, ⟨0, 1⟩,
       ⟨0, 1⟩, ⟨0, 1⟩, ⟨0, 1⟩, ⟨0, 1⟩, ⟨0, 1⟩]) 10 = none := by
  have hlr : logReturns
      [⟨0, 1⟩, ⟨0, 1⟩, ⟨0, 1⟩, ⟨0, 1⟩, ⟨0, 1⟩, ⟨0, 1⟩,
       ⟨0, 1⟩, ⟨0, 1⟩, ⟨0, 1⟩, ⟨0, 1⟩, ⟨0, 1⟩] =
      [0, 0, 0, 0, 0, 0, 0, 0, 0, 0] := by
    simp [logReturns]
  have hsd : stddev [(0 : ℝ), 0, 0, 0, 0, 0, 0, 0, 0, 0] = 0 := by
    simp [stddev]
  have hr := volUpdate_rollingVol initVolState
    [⟨0, 1⟩, ⟨0, 1⟩, ⟨0, 1⟩, ⟨0, 1⟩, ⟨0, 1⟩, ⟨0, 1⟩,
     ⟨0, 1⟩, ⟨0, 1⟩, ⟨0, 1⟩, ⟨0, 1⟩, ⟨0, 1⟩] (by decide) 10
  rw [if_pos (show (10 : ℕ) ∈ VOL_WINDOWS by decide), hlr] at hr
  norm_num at hr
  rw [hsd] at hr
  exact ⟨hr, by simp [getSigma, hr]⟩

/-- C4 amended: after `update()` with at least two buffered ticks, for
every configured window `w`, `rollingVol[w]` holds the population σ of
the most recent `w` log-returns when at least `w` exist and `null`
otherwise; `getSigma(w)` returns that stored σ *unless it is zero* — a
computed σ of `0`, like a missing one, comes back as `null`. -/
theorem getSigma_after_update (s : VolState) (ticks : List Tick) (w : ℕ)
    (hw : w ∈ VOL_WINDOWS) (h2 : 2 ≤ ticks.length) :
    (w ≤ (logReturns ticks).length →
      (volUpdate s ticks).rollingVol w =
        some (stddev ((logReturns ticks).drop ((logReturns ticks).length - w))) ∧
      getSigma (volUpdate s ticks) w =
        (if stddev ((logReturns ticks).drop ((logReturns ticks).length - w)) = 0 then none
         else some (stddev ((logReturns ticks).drop ((logReturns ticks).length - w))))) ∧
    ((logReturns ticks).length < w →
      (volUpdate s ticks).rollingVol w = none ∧
      getSigma (volUpdate s ticks) w = none) := by
  have hn2 : ¬ ticks.length < 2 := not_lt.mpr h2
  constructor
  · intro hle
    have hr : (volUpdate s ticks).rollingVol w =
        some (stddev ((logReturns ticks).drop ((logReturns ticks).length - w))) := by
      rw [volUpdate_rollingVol s ticks hn2 w, if_pos hw, if_pos hle]
    exact ⟨hr, by rw [getSigma, hr]⟩
  · intro hlt
    have hr : (volUpdate s ticks).rollingVol w = none := by
      rw [volUpdate_rollingVol s ticks hn2 w, if_pos hw, if_neg (not_le.mpr hlt)]
    exact ⟨hr, by rw [getSigma, hr]⟩

/-- Witness for C4 (amended): two ticks give one log-return, fewer than
the 300 of the largest window, so both the stored and the served σ for
window 300 are null. -/
theorem getSigma_after_update_witness :
    (volUpdate initVolState [⟨0, 1⟩, ⟨1, 1⟩]).rollingVol 300 = none ∧
    getSigma (volUpdate initVolState [⟨0, 1⟩, ⟨1, 1⟩]) 300 = none :=
  (getSigma_after_update initVolState [⟨0, 1⟩, ⟨1, 1⟩] 300 (by decide) (by decide)).2
    (by simp [logReturns])
